import Mathlib

/-!
Verification development for the Deepmetrics Analytics Institute
single-page application.  The definitions below are a shallow embedding
of the client-side enrollment state machine, the derived user view, the
admin pending-request derivation, the signed-URL asset resolver, the
upload validation, and the in-memory notification bus, translated from
the application source (`App` component handlers, `supabaseClient`
storage helpers, `CourseEditor` / `Certificate` upload handlers).

The backend table store is modelled as a list of enrollment rows; the
supabase `update ... match` calls become a `List.map` that rewrites every
matching row, and `insert` appends a row.  Only the success path of each
backend call is modelled (backend failure is external nondeterminism the
handlers merely surface as a notification and an early return).
-/

namespace Deepmetrics

/-- Enrollment status column: `registered`, `pending` or `completed`. -/
inductive EStatus
  | registered
  | pending
  | completed
deriving DecidableEq, Repr

/-- One row of the `enrollments` table: `(user_id, course_id, status, progress)`. -/
structure Enrollment where
  user_id : String
  course_id : String
  status : EStatus
  progress : Int
deriving DecidableEq, Repr

/-- The fields of a course row that the modelled logic reads. -/
structure Course where
  id : String
  title : String
deriving DecidableEq, Repr

/-- The `User` object the app constructs from a profile plus the user's
enrollment rows (`fetchUserData` / `fetchAllUsersForAdmin`).
`courseProgress` keeps the rows' `(course_id, progress)` pairs in table
order; the JS object built by `forEach` assignment is recovered by
`lookupProgress` (last write wins). -/
structure User where
  id : String
  name : String
  email : String
  registeredCourseIds : List String
  pendingCourseIds : List String
  completedCourseIds : List String
  courseProgress : List (String × Int)
deriving DecidableEq, Repr

/-- Notification type tag used by `addNotification`. -/
inductive NType
  | success
  | info
  | email
deriving DecidableEq, Repr

/-- A notification as a handler emits it (message and type); ids are
assigned by the notification bus, modelled separately. -/
structure Notif where
  message : String
  ntype : NType
deriving DecidableEq, Repr

/-- A live entry of the notification bus, with its `Date.now()`-derived id. -/
structure Notification where
  id : Int
  message : String
  ntype : NType
deriving DecidableEq, Repr

/-- Derivation of the `User` object from the enrollment rows of a given
user id, as in `fetchUserData`: `registeredCourseIds` collects every
row's course id, `pendingCourseIds` / `completedCourseIds` keep the rows
whose status is `pending` / `completed`, and `courseProgress` records the
`(course_id, progress)` pairs. -/
def fetchUserData (uid uname uemail : String) (table : List Enrollment) : User :=
  let es := table.filter (fun e => e.user_id = uid)
  { id := uid
    name := uname
    email := uemail
    registeredCourseIds := es.map (fun e => e.course_id)
    pendingCourseIds := (es.filter (fun e => e.status = EStatus.pending)).map (fun e => e.course_id)
    completedCourseIds := (es.filter (fun e => e.status = EStatus.completed)).map (fun e => e.course_id)
    courseProgress := es.map (fun e => (e.course_id, e.progress)) }

/-- Lookup in the progress map built by `forEach` assignment: the last
pair written for a course id wins, `none` if the id never occurs. -/
def lookupProgress (m : List (String × Int)) (cid : String) : Option Int :=
  m.foldl (fun acc p => if p.1 = cid then some p.2 else acc) none

/-- The already-registered notification text of `handleRegisterCourse`. -/
def alreadyRegisteredMsg : String := "You are already registered for this training program."

/-- The `course?.title || 'training program'` interpolation of the
registration success message (JS `||` also replaces an empty title). -/
def courseTitleOrDefault : Option Course → String
  | some c => if c.title = "" then "training program" else c.title
  | none => "training program"

/-- `handleRegisterCourse`: if the course id is already among the user's
registered course ids, only the already-registered notification is
emitted; otherwise a `registered`/progress-0 row is inserted, a success
notification is emitted and (when the course was found in the catalog) a
simulated confirmation email notification follows. -/
def handleRegisterCourse (uid uname uemail : String) (courses : List Course)
    (courseId : String) (table : List Enrollment) : List Enrollment × List Notif :=
  let user := fetchUserData uid uname uemail table
  if courseId ∈ user.registeredCourseIds then
    (table, [⟨alreadyRegisteredMsg, NType.info⟩])
  else
    let course := courses.find? (fun c => c.id = courseId)
    let newTable := table ++ [⟨uid, courseId, EStatus.registered, 0⟩]
    let successNotif : Notif :=
      ⟨"Successfully registered for " ++ courseTitleOrDefault course ++ "!", NType.success⟩
    let emailNotifs : List Notif :=
      match course with
      | some _ => [⟨"Email sent to " ++ uemail ++ ": Training Registration Confirmation", NType.email⟩]
      | none => []
    (newTable, [successNotif] ++ emailNotifs)

/-- `handleProgressChange`: unconditional overwrite of the progress value
of every row matching `(user_id, course_id)`. -/
def handleProgressChange (uid courseId : String) (progress : Int)
    (table : List Enrollment) : List Enrollment × List Notif :=
  (table.map (fun e =>
    if e.user_id = uid ∧ e.course_id = courseId then { e with progress := progress } else e),
   [])

/-- The `Completion request sent for ${course?.title}` message; a missing
course interpolates the JS `undefined`. -/
def requestSentMsg (courses : List Course) (courseId : String) : String :=
  "Completion request sent for " ++
    (match courses.find? (fun c => c.id = courseId) with
     | some c => c.title
     | none => "undefined")

/-- `handleRequestCompletion`: guarded only by membership of the course
id in the user's `completedCourseIds`; otherwise every row matching
`(user_id, course_id)` is set to `pending` and the request-sent
notification is emitted. -/
def handleRequestCompletion (uid uname uemail : String) (courses : List Course)
    (courseId : String) (table : List Enrollment) : List Enrollment × List Notif :=
  let user := fetchUserData uid uname uemail table
  if courseId ∈ user.completedCourseIds then
    (table, [⟨"You have already completed this training program.", NType.info⟩])
  else
    (table.map (fun e =>
      if e.user_id = uid ∧ e.course_id = courseId then { e with status := EStatus.pending } else e),
     [⟨requestSentMsg courses courseId, NType.info⟩])

/-- `handleApproveCompletion`: every row matching
`(targetUserId, courseId)` is set to `completed` with progress forced to
100; an approval notification and (when target user and course resolve)
a simulated congratulation email notification are emitted. -/
def handleApproveCompletion (targetUserId courseId : String) (allUsers : List User)
    (courses : List Course) (table : List Enrollment) : List Enrollment × List Notif :=
  let newTable := table.map (fun e =>
    if e.user_id = targetUserId ∧ e.course_id = courseId then
      { e with status := EStatus.completed, progress := 100 }
    else e)
  let targetUser := allUsers.find? (fun u => u.id = targetUserId)
  let approveNotif : Notif :=
    ⟨"Approved completion for " ++
      (match targetUser with | some u => u.name | none => "undefined") ++ ".", NType.success⟩
  let emailNotifs : List Notif :=
    match targetUser, courses.find? (fun c => c.id = courseId) with
    | some u, some c =>
        [⟨"Email sent to " ++ u.email ++ ": 🎉 Congratulations! You have completed " ++ c.title,
          NType.email⟩]
    | _, _ => []
  (newTable, [approveNotif] ++ emailNotifs)

/-- `handleRejectCompletion`: every row matching
`(targetUserId, courseId)` is set back to `registered`; the progress
column is not touched. -/
def handleRejectCompletion (targetUserId courseId : String) (allUsers : List User)
    (table : List Enrollment) : List Enrollment × List Notif :=
  let newTable := table.map (fun e =>
    if e.user_id = targetUserId ∧ e.course_id = courseId then
      { e with status := EStatus.registered }
    else e)
  let targetUser := allUsers.find? (fun u => u.id = targetUserId)
  (newTable,
   [⟨"Rejected completion for " ++
      (match targetUser with | some u => u.name | none => "undefined"), NType.info⟩])

/-- An entry of the admin completion-request list. -/
structure PendingRequest where
  user : User
  courseId : String
  course : Option Course
deriving DecidableEq, Repr

/-- The pending-request derivation of the admin dashboard: flatten every
user's `pendingCourseIds` into `{user, courseId, course}` entries, looking
the course up in the catalog, then drop entries whose course did not
resolve. -/
def pendingRequests (allUsers : List User) (courses : List Course) : List PendingRequest :=
  (allUsers.flatMap (fun u =>
    u.pendingCourseIds.map (fun cid =>
      PendingRequest.mk u cid (courses.find? (fun c => c.id = cid))))).filter
    (fun req => req.course.isSome)

/-- The `startsWith` test of the source, embedded on character lists so
it is computable by the kernel. -/
def strStartsWith (s pat : String) : Bool :=
  pat.data.isPrefixOf s.data

/-- The `getSignedUrl` storage helper.  The storage collaborator's
`createSignedUrl` is passed in as an oracle `sign` (`none` models a
signing error, which the source surfaces as `undefined`).  The second
component records the paths for which the storage collaborator was
asked to sign, so "no signing request was made" is expressible. -/
def getSignedUrl (sign : String → Option String) (path : Option String) :
    Option String × List String :=
  match path with
  | none => (none, [])
  | some p =>
      if strStartsWith p "http" then (some p, [])
      else (sign p, [p])

/-- Result of the pre-upload validation in the upload handlers. -/
inductive UploadResult
  | ok
  | formatError
  | sizeError
deriving DecidableEq, Repr

/-- The fixed 2 MB size ceiling for image uploads. -/
def maxImageBytes : Nat := 2 * 1024 * 1024

/-- MIME types accepted for instructor signatures (CourseEditor and
Certificate signature upload handlers). -/
def signatureAllowedTypes : List String := ["image/jpeg", "image/png", "image/svg+xml"]

/-- MIME types accepted for course cover images (CourseEditor image
upload handler). -/
def coverAllowedTypes : List String := ["image/jpeg", "image/png", "image/webp"]

/-- `handleSignatureUpload` validation: the MIME type is checked first,
then the size; the Bool records whether the upload call is reached. -/
def handleSignatureUpload (fileType : String) (fileSize : Nat) : UploadResult × Bool :=
  if fileType ∉ signatureAllowedTypes then (UploadResult.formatError, false)
  else if fileSize > maxImageBytes then (UploadResult.sizeError, false)
  else (UploadResult.ok, true)

/-- `handleImageUpload` validation for cover images: MIME type first,
then size; the Bool records whether the upload call is reached. -/
def handleImageUpload (fileType : String) (fileSize : Nat) : UploadResult × Bool :=
  if fileType ∉ coverAllowedTypes then (UploadResult.formatError, false)
  else if fileSize > maxImageBytes then (UploadResult.sizeError, false)
  else (UploadResult.ok, true)

/-- `addNotification`: the new entry's id is the `Date.now()` value of
the call (passed in as `now`), and the entry is appended to the live
list. -/
def addNotification (now : Int) (message : String) (ntype : NType)
    (state : List Notification) : List Notification :=
  state ++ [⟨now, message, ntype⟩]

/-- `removeNotification` (also the body of the 6-second timeout): drop
every live entry whose id equals the given id. -/
def removeNotification (id : Int) (state : List Notification) : List Notification :=
  state.filter (fun n => n.id ≠ id)

/-! ## Helper lemmas -/

/-- Membership in the derived `registeredCourseIds` is existence of an
enrollment row for the pair. -/
theorem mem_registeredCourseIds (uid uname uemail cid : String) (table : List Enrollment) :
    cid ∈ (fetchUserData uid uname uemail table).registeredCourseIds ↔
      ∃ e, e ∈ table ∧ e.user_id = uid ∧ e.course_id = cid := by
  simp only [fetchUserData, List.mem_map, List.mem_filter, decide_eq_true_eq]
  constructor
  · rintro ⟨e, ⟨hm, h1⟩, h2⟩
    exact ⟨e, hm, h1, h2⟩
  · rintro ⟨e, hm, h1, h2⟩
    exact ⟨e, ⟨hm, h1⟩, h2⟩

/-- Membership in the derived `completedCourseIds` is existence of a
completed enrollment row for the pair. -/
theorem mem_completedCourseIds (uid uname uemail cid : String) (table : List Enrollment) :
    cid ∈ (fetchUserData uid uname uemail table).completedCourseIds ↔
      ∃ e, e ∈ table ∧ e.user_id = uid ∧ e.course_id = cid ∧ e.status = EStatus.completed := by
  simp only [fetchUserData, List.mem_map, List.mem_filter, decide_eq_true_eq]
  constructor
  · rintro ⟨e, ⟨⟨hm, h1⟩, h2⟩, h3⟩
    exact ⟨e, hm, h1, h3, h2⟩
  · rintro ⟨e, hm, h1, h3, h2⟩
    exact ⟨e, ⟨⟨hm, h1⟩, h2⟩, h3⟩

/-- Membership in the derived `pendingCourseIds` is existence of a
pending enrollment row for the pair. -/
theorem mem_pendingCourseIds (uid uname uemail cid : String) (table : List Enrollment) :
    cid ∈ (fetchUserData uid uname uemail table).pendingCourseIds ↔
      ∃ e, e ∈ table ∧ e.user_id = uid ∧ e.course_id = cid ∧ e.status = EStatus.pending := by
  simp only [fetchUserData, List.mem_map, List.mem_filter, decide_eq_true_eq]
  constructor
  · rintro ⟨e, ⟨⟨hm, h1⟩, h2⟩, h3⟩
    exact ⟨e, hm, h1, h3, h2⟩
  · rintro ⟨e, hm, h1, h3, h2⟩
    exact ⟨e, ⟨⟨hm, h1⟩, h2⟩, h3⟩

/-- Table component of `handleApproveCompletion`. -/
theorem handleApproveCompletion_fst (tU c : String) (allUsers : List User)
    (courses : List Course) (table : List Enrollment) :
    (handleApproveCompletion tU c allUsers courses table).1
      = table.map (fun e =>
          if e.user_id = tU ∧ e.course_id = c then
            { e with status := EStatus.completed, progress := 100 }
          else e) := rfl

/-- Table component of `handleRejectCompletion`. -/
theorem handleRejectCompletion_fst (tU c : String) (allUsers : List User)
    (table : List Enrollment) :
    (handleRejectCompletion tU c allUsers table).1
      = table.map (fun e =>
          if e.user_id = tU ∧ e.course_id = c then
            { e with status := EStatus.registered }
          else e) := rfl

/-- Table component of `handleProgressChange`. -/
theorem handleProgressChange_fst (uid courseId : String) (p : Int)
    (table : List Enrollment) :
    (handleProgressChange uid courseId p table).1
      = table.map (fun e =>
          if e.user_id = uid ∧ e.course_id = courseId then { e with progress := p }
          else e) := rfl

/-- Table component of `handleRegisterCourse` as an explicit case split
on the already-registered guard. -/
theorem handleRegisterCourse_fst (uid uname uemail courseId : String)
    (courses : List Course) (table : List Enrollment) :
    (handleRegisterCourse uid uname uemail courses courseId table).1
      = if courseId ∈ (fetchUserData uid uname uemail table).registeredCourseIds then table
        else table ++ [⟨uid, courseId, EStatus.registered, 0⟩] := by
  by_cases h : courseId ∈ (fetchUserData uid uname uemail table).registeredCourseIds <;>
    simp [handleRegisterCourse, h]

/-- Table component of `handleRequestCompletion` as an explicit case
split on the already-completed guard. -/
theorem handleRequestCompletion_fst (uid uname uemail courseId : String)
    (courses : List Course) (table : List Enrollment) :
    (handleRequestCompletion uid uname uemail courses courseId table).1
      = if courseId ∈ (fetchUserData uid uname uemail table).completedCourseIds then table
        else table.map (fun e =>
          if e.user_id = uid ∧ e.course_id = courseId then
            { e with status := EStatus.pending }
          else e) := by
  by_cases h : courseId ∈ (fetchUserData uid uname uemail table).completedCourseIds <;>
    simp [handleRequestCompletion, h]

/-- Mapping a function that fixes every element of a list is the
identity. -/
theorem map_eq_self_of_fixes {α : Type} (l : List α) (f : α → α)
    (h : ∀ a ∈ l, f a = a) : l.map f = l := by
  induction l with
  | nil => rfl
  | cons a t ih =>
      simp only [List.map_cons]
      rw [h a (by simp), ih (fun b hb => h b (by simp [hb]))]

/-! ## Claims -/

/-- C1: for every enrollment row in state `pending` for the targeted
(user, course) pair, `approveCompletion` maps it to the row with status
`completed` and progress 100, and `rejectCompletion` maps it to the row
with status `registered` and progress unchanged. -/
theorem approve_reject_pending_enrollment
    (tU c : String) (allUsers : List User) (courses : List Course)
    (table : List Enrollment) (e : Enrollment)
    (he : e ∈ table) (hu : e.user_id = tU) (hc : e.course_id = c)
    (hp : e.status = EStatus.pending) :
    { e with status := EStatus.completed, progress := 100 }
        ∈ (handleApproveCompletion tU c allUsers courses table).1 ∧
    { e with status := EStatus.registered }
        ∈ (handleRejectCompletion tU c allUsers table).1 := by
  constructor
  · rw [handleApproveCompletion_fst]
    exact List.mem_map.mpr ⟨e, he, by simp [hu, hc]⟩
  · rw [handleRejectCompletion_fst]
    exact List.mem_map.mpr ⟨e, he, by simp [hu, hc]⟩

/-- C1 witness: instantiation on a one-row table with a pending
enrollment at progress 40. -/
theorem approve_reject_pending_enrollment_w :
    ({ user_id := "u1", course_id := "c1", status := EStatus.completed, progress := 100 : Enrollment })
        ∈ (handleApproveCompletion "u1" "c1" [] []
            [⟨"u1", "c1", EStatus.pending, 40⟩]).1 ∧
    ({ user_id := "u1", course_id := "c1", status := EStatus.registered, progress := 40 : Enrollment })
        ∈ (handleRejectCompletion "u1" "c1" []
            [⟨"u1", "c1", EStatus.pending, 40⟩]).1 :=
  approve_reject_pending_enrollment "u1" "c1" [] []
    [⟨"u1", "c1", EStatus.pending, 40⟩] ⟨"u1", "c1", EStatus.pending, 40⟩
    (by simp) rfl rfl rfl

/-- Getting a mapped list at the index of `i` applies the function to
the original element. -/
theorem get_map_of_val_eq {α β : Type} (l : List α) (f : α → β) (i : Fin l.length)
    (j : Fin (l.map f).length) (h : j.val = i.val) :
    (l.map f).get j = f (l.get i) := by
  rcases i with ⟨iv, hi⟩
  rcases j with ⟨jv, hj⟩
  subst h
  simp [List.get_eq_getElem, List.getElem_map]

/-- Getting an extended list at an index of the original list returns
the original element. -/
theorem get_append_left_of_val_eq {α : Type} (l l2 : List α) (i : Fin l.length)
    (j : Fin (l ++ l2).length) (h : j.val = i.val) :
    (l ++ l2).get j = l.get i := by
  rcases i with ⟨iv, hi⟩
  rcases j with ⟨jv, hj⟩
  subst h
  simp [List.get_eq_getElem]
  exact List.getElem_append_left hi

/-- C2 counterexample: an enrollment in state `completed` is moved back
to `registered` by `rejectCompletion` on its (user, course) pair, so a
transition out of `completed` does exist. -/
theorem completed_not_terminal_cex :
    (handleRejectCompletion "u1" "c1" [] [⟨"u1", "c1", EStatus.completed, 100⟩]).1
      = [⟨"u1", "c1", EStatus.registered, 100⟩] ∧
    EStatus.registered ≠ EStatus.completed :=
  ⟨rfl, by decide⟩

/-- C2 amended: an enrollment in state `completed` is never moved out of
`completed` by `register`, `setProgress`, `requestCompletion` or
`approveCompletion`; `rejectCompletion` applied directly to its
(user, course) pair is the one operation that moves it back to
`registered` (the admin UI only invokes it on pending entries). -/
theorem completed_stable_except_reject
    (uid uname uemail tU c : String) (p : Int)
    (allUsers : List User) (courses : List Course)
    (table : List Enrollment) (i : Fin table.length)
    (hcomp : (table.get i).status = EStatus.completed) :
    (∀ j : Fin (handleRegisterCourse uid uname uemail courses c table).1.length,
        j.val = i.val →
        ((handleRegisterCourse uid uname uemail courses c table).1.get j).status
          = EStatus.completed) ∧
    (∀ j : Fin (handleProgressChange uid c p table).1.length,
        j.val = i.val →
        ((handleProgressChange uid c p table).1.get j).status = EStatus.completed) ∧
    (∀ j : Fin (handleRequestCompletion uid uname uemail courses c table).1.length,
        j.val = i.val →
        ((handleRequestCompletion uid uname uemail courses c table).1.get j).status
          = EStatus.completed) ∧
    (∀ j : Fin (handleApproveCompletion tU c allUsers courses table).1.length,
        j.val = i.val →
        ((handleApproveCompletion tU c allUsers courses table).1.get j).status
          = EStatus.completed) := by
  have hmem : table.get i ∈ table := List.get_mem table i.val i.isLt
  refine ⟨?_, ?_, ?_, ?_⟩
  · rw [handleRegisterCourse_fst]
    by_cases hg : c ∈ (fetchUserData uid uname uemail table).registeredCourseIds
    · rw [if_pos hg]
      intro j hj
      have hji : j = i := Fin.ext hj
      subst hji
      exact hcomp
    · rw [if_neg hg]
      intro j hj
      rw [get_append_left_of_val_eq table _ i j hj]
      exact hcomp
  · rw [handleProgressChange_fst]
    intro j hj
    rw [get_map_of_val_eq table _ i j hj]
    by_cases hm : (table.get i).user_id = uid ∧ (table.get i).course_id = c
    · simp only [if_pos hm]
      exact hcomp
    · simp only [if_neg hm]
      exact hcomp
  · rw [handleRequestCompletion_fst]
    by_cases hg : c ∈ (fetchUserData uid uname uemail table).completedCourseIds
    · rw [if_pos hg]
      intro j hj
      have hji : j = i := Fin.ext hj
      subst hji
      exact hcomp
    · rw [if_neg hg]
      intro j hj
      rw [get_map_of_val_eq table _ i j hj]
      by_cases hm : (table.get i).user_id = uid ∧ (table.get i).course_id = c
      · exact absurd ((mem_completedCourseIds uid uname uemail c table).mpr
          ⟨table.get i, hmem, hm.1, hm.2, hcomp⟩) hg
      · simp only [if_neg hm]
        exact hcomp
  · rw [handleApproveCompletion_fst]
    intro j hj
    rw [get_map_of_val_eq table _ i j hj]
    by_cases hm : (table.get i).user_id = tU ∧ (table.get i).course_id = c
    · simp only [if_pos hm]
    · simp only [if_neg hm]
      exact hcomp

/-- C2 amended witness: instantiation on a one-row table holding a
completed enrollment, checking the preserved status at index 0 for each
of the four operations. -/
theorem completed_stable_except_reject_w :
    ((handleRegisterCourse "u2" "n" "e@x" [] "c1"
        [⟨"u1", "c1", EStatus.completed, 100⟩]).1.get
          ⟨0, by decide⟩).status = EStatus.completed ∧
    ((handleProgressChange "u2" "c1" 5
        [⟨"u1", "c1", EStatus.completed, 100⟩]).1.get
          ⟨0, by decide⟩).status = EStatus.completed ∧
    ((handleRequestCompletion "u2" "n" "e@x" [] "c1"
        [⟨"u1", "c1", EStatus.completed, 100⟩]).1.get
          ⟨0, by decide⟩).status = EStatus.completed ∧
    ((handleApproveCompletion "u2" "c1" [] []
        [⟨"u1", "c1", EStatus.completed, 100⟩]).1.get
          ⟨0, by decide⟩).status = EStatus.completed := by
  obtain ⟨h1, h2, h3, h4⟩ := completed_stable_except_reject "u2" "n" "e@x" "u2" "c1" 5 [] []
    [⟨"u1", "c1", EStatus.completed, 100⟩] ⟨0, by simp⟩ rfl
  exact ⟨h1 _ rfl, h2 _ rfl, h3 _ rfl, h4 _ rfl⟩

/-- Looking up a course id whose pair was appended last yields that
pair's progress value (last write wins). -/
theorem lookupProgress_append_last (m : List (String × Int)) (cid : String) (p : Int) :
    lookupProgress (m ++ [(cid, p)]) cid = some p := by
  unfold lookupProgress
  rw [List.foldl_append]
  simp

/-- C3: registering a pair with no existing enrollment row succeeds: the
course id enters the derived `registeredCourseIds`, a row with status
`registered` and progress 0 is created, and the derived progress map
gives 0 for the course. -/
theorem register_fresh_pair
    (uid uname uemail courseId : String) (courses : List Course)
    (table : List Enrollment)
    (hno : ∀ e ∈ table, ¬(e.user_id = uid ∧ e.course_id = courseId)) :
    courseId ∈ (fetchUserData uid uname uemail
        (handleRegisterCourse uid uname uemail courses courseId table).1).registeredCourseIds ∧
    (⟨uid, courseId, EStatus.registered, 0⟩ : Enrollment)
        ∈ (handleRegisterCourse uid uname uemail courses courseId table).1 ∧
    lookupProgress (fetchUserData uid uname uemail
        (handleRegisterCourse uid uname uemail courses courseId table).1).courseProgress
        courseId = some 0 := by
  have hguard : courseId ∉ (fetchUserData uid uname uemail table).registeredCourseIds := by
    intro hmem
    obtain ⟨e, he, h1, h2⟩ := (mem_registeredCourseIds uid uname uemail courseId table).mp hmem
    exact hno e he ⟨h1, h2⟩
  have htab : (handleRegisterCourse uid uname uemail courses courseId table).1
      = table ++ [⟨uid, courseId, EStatus.registered, 0⟩] := by
    rw [handleRegisterCourse_fst, if_neg hguard]
  refine ⟨?_, ?_, ?_⟩
  · rw [htab, mem_registeredCourseIds]
    exact ⟨⟨uid, courseId, EStatus.registered, 0⟩, by simp, rfl, rfl⟩
  · rw [htab]
    simp
  · rw [htab]
    have hcp : (fetchUserData uid uname uemail
        (table ++ [⟨uid, courseId, EStatus.registered, 0⟩])).courseProgress
        = (table.filter (fun e => e.user_id = uid)).map (fun e => (e.course_id, e.progress))
          ++ [(courseId, 0)] := by
      simp [fetchUserData, List.filter_append]
    rw [hcp, lookupProgress_append_last]

/-- C3 witness: instantiation on the empty table with a one-course
catalog. -/
theorem register_fresh_pair_w :
    "c1" ∈ (fetchUserData "u1" "n" "e@x"
        (handleRegisterCourse "u1" "n" "e@x" [⟨"c1", "Intro"⟩] "c1" []).1).registeredCourseIds ∧
    (⟨"u1", "c1", EStatus.registered, 0⟩ : Enrollment)
        ∈ (handleRegisterCourse "u1" "n" "e@x" [⟨"c1", "Intro"⟩] "c1" []).1 ∧
    lookupProgress (fetchUserData "u1" "n" "e@x"
        (handleRegisterCourse "u1" "n" "e@x" [⟨"c1", "Intro"⟩] "c1" []).1).courseProgress
        "c1" = some 0 :=
  register_fresh_pair "u1" "n" "e@x" "c1" [⟨"c1", "Intro"⟩] [] (by simp)

/-- C4: a second register call for the same pair leaves the enrollment
table exactly as it was after the first call and produces only the
already-registered notification. -/
theorem register_twice
    (uid uname uemail courseId : String) (courses : List Course) (table : List Enrollment)
    (hno : ∀ e ∈ table, ¬(e.user_id = uid ∧ e.course_id = courseId)) :
    handleRegisterCourse uid uname uemail courses courseId
        (handleRegisterCourse uid uname uemail courses courseId table).1
      = ((handleRegisterCourse uid uname uemail courses courseId table).1,
         [⟨alreadyRegisteredMsg, NType.info⟩]) := by
  have hguard : courseId ∉ (fetchUserData uid uname uemail table).registeredCourseIds := by
    intro hmem
    obtain ⟨e, he, h1, h2⟩ := (mem_registeredCourseIds uid uname uemail courseId table).mp hmem
    exact hno e he ⟨h1, h2⟩
  have htab : (handleRegisterCourse uid uname uemail courses courseId table).1
      = table ++ [⟨uid, courseId, EStatus.registered, 0⟩] := by
    rw [handleRegisterCourse_fst, if_neg hguard]
  have hguard2 : courseId ∈ (fetchUserData uid uname uemail
      (table ++ [⟨uid, courseId, EStatus.registered, 0⟩])).registeredCourseIds :=
    (mem_registeredCourseIds uid uname uemail courseId _).mpr
      ⟨⟨uid, courseId, EStatus.registered, 0⟩, by simp, rfl, rfl⟩
  rw [htab]
  simp [handleRegisterCourse, hguard2]

/-- C4 witness: instantiation on the empty table. -/
theorem register_twice_w :
    handleRegisterCourse "u1" "n" "e@x" [⟨"c1", "Intro"⟩] "c1"
        (handleRegisterCourse "u1" "n" "e@x" [⟨"c1", "Intro"⟩] "c1" []).1
      = ((handleRegisterCourse "u1" "n" "e@x" [⟨"c1", "Intro"⟩] "c1" []).1,
         [⟨alreadyRegisteredMsg, NType.info⟩]) :=
  register_twice "u1" "n" "e@x" "c1" [⟨"c1", "Intro"⟩] [] (by simp)

/-- Filtering a flattened map filters each generated block. -/
theorem filter_flatMap_blocks {α β : Type} (l : List α) (f : α → List β) (p : β → Bool) :
    (l.flatMap f).filter p = l.flatMap (fun a => (f a).filter p) := by
  induction l with
  | nil => rfl
  | cons a t ih => simp [List.flatMap_cons, List.filter_append, ih]

/-- C5: the pending-requests derivation produces, for each user, exactly
one entry per pending course id that resolves in the catalog, and every
produced entry carries a course present in the catalog whose id is the
entry's course id. -/
theorem pendingRequests_resolved
    (allUsers : List User) (courses : List Course) :
    pendingRequests allUsers courses
      = allUsers.flatMap (fun u =>
          (u.pendingCourseIds.filter
              (fun cid => (courses.find? (fun c => c.id = cid)).isSome)).map
            (fun cid => PendingRequest.mk u cid (courses.find? (fun c => c.id = cid)))) ∧
    ∀ req ∈ pendingRequests allUsers courses,
      ∃ c, c ∈ courses ∧ c.id = req.courseId ∧ req.course = some c := by
  constructor
  · unfold pendingRequests
    rw [filter_flatMap_blocks]
    congr 1
    funext u
    rw [List.filter_map]
    rfl
  · intro req hreq
    unfold pendingRequests at hreq
    rw [List.mem_filter] at hreq
    obtain ⟨hmem, hsome⟩ := hreq
    rw [List.mem_flatMap] at hmem
    obtain ⟨u, hu, hmm⟩ := hmem
    rw [List.mem_map] at hmm
    obtain ⟨cid, hcid, rfl⟩ := hmm
    obtain ⟨c, hc⟩ := Option.isSome_iff_exists.mp hsome
    refine ⟨c, List.mem_of_find?_eq_some hc, ?_, hc⟩
    simpa using List.find?_some hc

/-- C5 witness: a one-user, one-course instantiation; the single pending
entry carries the catalog course. -/
theorem pendingRequests_resolved_w :
    ∃ c, c ∈ [(⟨"c1", "Intro"⟩ : Course)] ∧ c.id = "c1" ∧
      (some (⟨"c1", "Intro"⟩ : Course) : Option Course) = some c :=
  (pendingRequests_resolved [⟨"u1", "n", "e@x", ["c1"], ["c1"], [], [("c1", 50)]⟩]
      [⟨"c1", "Intro"⟩]).2
    ⟨⟨"u1", "n", "e@x", ["c1"], ["c1"], [], [("c1", 50)]⟩, "c1", some ⟨"c1", "Intro"⟩⟩
    (by decide)

/-- C6: a User object constructed from an enrollment snapshot whose rows
carry pairwise distinct course ids for this user (the table's
(user_id, course_id) unique key) satisfies the invariants: pending and
completed course ids are subsets of the registered ones, and pending and
completed are disjoint. -/
theorem constructed_user_invariants
    (uid uname uemail : String) (table : List Enrollment)
    (hkey : ((table.filter (fun e => e.user_id = uid)).map (fun e => e.course_id)).Nodup) :
    (∀ cid ∈ (fetchUserData uid uname uemail table).pendingCourseIds,
        cid ∈ (fetchUserData uid uname uemail table).registeredCourseIds) ∧
    (∀ cid ∈ (fetchUserData uid uname uemail table).completedCourseIds,
        cid ∈ (fetchUserData uid uname uemail table).registeredCourseIds) ∧
    (∀ cid ∈ (fetchUserData uid uname uemail table).pendingCourseIds,
        cid ∉ (fetchUserData uid uname uemail table).completedCourseIds) := by
  refine ⟨?_, ?_, ?_⟩
  · intro cid h
    obtain ⟨e, he, h1, h2, _⟩ := (mem_pendingCourseIds uid uname uemail cid table).mp h
    exact (mem_registeredCourseIds uid uname uemail cid table).mpr ⟨e, he, h1, h2⟩
  · intro cid h
    obtain ⟨e, he, h1, h2, _⟩ := (mem_completedCourseIds uid uname uemail cid table).mp h
    exact (mem_registeredCourseIds uid uname uemail cid table).mpr ⟨e, he, h1, h2⟩
  · intro cid hpd hcm
    obtain ⟨e1, he1, h11, h12, h13⟩ := (mem_pendingCourseIds uid uname uemail cid table).mp hpd
    obtain ⟨e2, he2, h21, h22, h23⟩ := (mem_completedCourseIds uid uname uemail cid table).mp hcm
    have hm1 : e1 ∈ table.filter (fun e => e.user_id = uid) :=
      List.mem_filter.mpr ⟨he1, by simp [h11]⟩
    have hm2 : e2 ∈ table.filter (fun e => e.user_id = uid) :=
      List.mem_filter.mpr ⟨he2, by simp [h21]⟩
    have heq : e1 = e2 :=
      List.inj_on_of_nodup_map hkey hm1 hm2 (h12.trans h22.symm)
    rw [heq] at h13
    exact EStatus.noConfusion (h13.symm.trans h23)

/-- C6 witness: a one-row snapshot with a pending enrollment. -/
theorem constructed_user_invariants_w :
    "c1" ∈ (fetchUserData "u1" "n" "e@x"
        [⟨"u1", "c1", EStatus.pending, 10⟩]).registeredCourseIds ∧
    "c1" ∉ (fetchUserData "u1" "n" "e@x"
        [⟨"u1", "c1", EStatus.pending, 10⟩]).completedCourseIds := by
  obtain ⟨h1, _, h3⟩ := constructed_user_invariants "u1" "n" "e@x"
    [⟨"u1", "c1", EStatus.pending, 10⟩] (by decide)
  exact ⟨h1 "c1" (by decide), h3 "c1" (by decide)⟩

/-- C7 counterexample: "ftp://host/file" starts with the URL scheme
"ftp:" — it already looks like an absolute URL — yet `getSignedUrl`
does not return it unchanged (the resolver only recognises inputs
starting with "http") and does ask the storage collaborator to sign it. -/
theorem resolve_scheme_cex :
    strStartsWith "ftp://host/file" "ftp:" = true ∧
    (getSignedUrl (fun _ => none) (some "ftp://host/file")).1 ≠ some "ftp://host/file" ∧
    (getSignedUrl (fun _ => none) (some "ftp://host/file")).2 = ["ftp://host/file"] := by
  decide

/-- C7 amended: for every input that starts with "http" the resolver
returns it unchanged and requests no signed URL from the storage
collaborator, whatever the signing oracle would answer. -/
theorem resolve_http_identity (sign : String → Option String) (url : String)
    (h : strStartsWith url "http" = true) :
    getSignedUrl sign (some url) = (some url, []) := by
  simp [getSignedUrl, h]

/-- C7 amended witness: a concrete https URL with an oracle that would
refuse to sign anything. -/
theorem resolve_http_identity_w :
    getSignedUrl (fun _ => none) (some "https://cdn.example/img.png")
      = (some "https://cdn.example/img.png", []) :=
  resolve_http_identity (fun _ => none) "https://cdn.example/img.png" (by decide)

/-- C8 counterexample: a 3 MB file of MIME type "text/plain" submitted
as a signature exceeds the 2 MB ceiling, yet the rejection carries the
format error, not the size error (the MIME check runs first). -/
theorem upload_oversize_cex :
    3 * 1024 * 1024 > maxImageBytes ∧
    (handleSignatureUpload "text/plain" (3 * 1024 * 1024)).1 ≠ UploadResult.sizeError ∧
    (handleSignatureUpload "text/plain" (3 * 1024 * 1024)).1 = UploadResult.formatError := by
  decide

/-- C8 amended: a file of an accepted MIME type larger than 2 MB is
rejected with the size error and no upload call is made, and a file
whose MIME type is outside the accepted set is rejected with the format
error and no upload call is made (MIME is checked before size), in both
the signature flow and the cover-image flow. -/
theorem upload_validation (t : String) (n : Nat) :
    (t ∈ signatureAllowedTypes → n > maxImageBytes →
        handleSignatureUpload t n = (UploadResult.sizeError, false)) ∧
    (t ∉ signatureAllowedTypes →
        handleSignatureUpload t n = (UploadResult.formatError, false)) ∧
    (t ∈ coverAllowedTypes → n > maxImageBytes →
        handleImageUpload t n = (UploadResult.sizeError, false)) ∧
    (t ∉ coverAllowedTypes →
        handleImageUpload t n = (UploadResult.formatError, false)) := by
  refine ⟨fun h1 h2 => ?_, fun h1 => ?_, fun h1 h2 => ?_, fun h1 => ?_⟩ <;>
    simp [handleSignatureUpload, handleImageUpload, h1, *]

/-- C8 amended witness: an oversized valid PNG gets the size error, a
text file gets the format error, in both flows. -/
theorem upload_validation_w :
    handleSignatureUpload "image/png" (3 * 1024 * 1024) = (UploadResult.sizeError, false) ∧
    handleSignatureUpload "text/plain" 10 = (UploadResult.formatError, false) ∧
    handleImageUpload "image/webp" (3 * 1024 * 1024) = (UploadResult.sizeError, false) ∧
    handleImageUpload "image/svg+xml" 10 = (UploadResult.formatError, false) := by
  obtain ⟨h1, -, -, -⟩ := upload_validation "image/png" (3 * 1024 * 1024)
  obtain ⟨-, h2, -, -⟩ := upload_validation "text/plain" 10
  obtain ⟨-, -, h3, -⟩ := upload_validation "image/webp" (3 * 1024 * 1024)
  obtain ⟨-, -, -, h4⟩ := upload_validation "image/svg+xml" 10
  exact ⟨h1 (by decide) (by decide), h2 (by decide), h3 (by decide) (by decide), h4 (by decide)⟩

/-- C9 counterexample: with a live notification of id 5 (created less
than the 6-second timeout ago), a notify call whose Date.now() value is
also 5 appends an entry whose id equals a live id — the id is not
fresh — and the single timed removal for id 5 then drops both entries. -/
theorem notify_id_collision_cex :
    addNotification 5 "hi" NType.info [⟨5, "hi", NType.info⟩]
      = [⟨5, "hi", NType.info⟩, ⟨5, "hi", NType.info⟩] ∧
    (5 : Int) ∈ ([⟨5, "hi", NType.info⟩] : List Notification).map Notification.id ∧
    removeNotification 5 (addNotification 5 "hi" NType.info [⟨5, "hi", NType.info⟩]) = [] := by
  decide

/-- C9 amended: notify appends its entry at the tail, so entries stay in
insertion order and two calls with identical message and type produce
two coexisting entries (no deduplication); the entry's id is the call's
Date.now() value and is distinct from all live ids exactly when no live
notification carries that timestamp. -/
theorem notify_appends_fresh
    (now1 now2 : Int) (m : String) (t : NType) (s : List Notification)
    (h1 : now1 ∉ s.map Notification.id) :
    addNotification now2 m t (addNotification now1 m t s)
      = s ++ [⟨now1, m, t⟩, ⟨now2, m, t⟩] ∧
    ∀ n ∈ s, n.id ≠ now1 := by
  constructor
  · simp [addNotification]
  · intro n hn hEq
    exact h1 (List.mem_map.mpr ⟨n, hn, hEq⟩)

/-- C9 amended witness: two identical notify calls at fresh timestamps
7 and 8 on top of a live entry with id 5. -/
theorem notify_appends_fresh_w :
    addNotification 8 "hi" NType.info (addNotification 7 "hi" NType.info [⟨5, "x", NType.info⟩])
      = [⟨5, "x", NType.info⟩, ⟨7, "hi", NType.info⟩, ⟨8, "hi", NType.info⟩] ∧
    (⟨5, "x", NType.info⟩ : Notification).id ≠ 7 := by
  obtain ⟨h1, h2⟩ := notify_appends_fresh 7 8 "hi" NType.info [⟨5, "x", NType.info⟩] (by decide)
  exact ⟨h1, h2 _ (by decide)⟩

/-- C10: requestCompletion for a pair with no enrollment row at all
passes its only guard (the course is not among the completed ids),
leaves the table exactly unchanged — the status update matches no row
and creates none — and still emits the completion-request-sent
notification. -/
theorem request_completion_unregistered
    (uid uname uemail courseId : String) (courses : List Course) (table : List Enrollment)
    (hno : ∀ e ∈ table, ¬(e.user_id = uid ∧ e.course_id = courseId)) :
    handleRequestCompletion uid uname uemail courses courseId table
      = (table, [⟨requestSentMsg courses courseId, NType.info⟩]) := by
  have hguard : courseId ∉ (fetchUserData uid uname uemail table).completedCourseIds := by
    intro hmem
    obtain ⟨e, he, h1, h2, _⟩ := (mem_completedCourseIds uid uname uemail courseId table).mp hmem
    exact hno e he ⟨h1, h2⟩
  have hmap : table.map (fun e =>
      if e.user_id = uid ∧ e.course_id = courseId then { e with status := EStatus.pending }
      else e) = table := by
    apply map_eq_self_of_fixes
    intro e he
    rw [if_neg (hno e he)]
  simp [handleRequestCompletion, hguard, hmap]

/-- C10 witness: a user with no enrollment rows at all requesting
completion of a catalog course. -/
theorem request_completion_unregistered_w :
    handleRequestCompletion "u1" "n" "e@x" [⟨"c1", "Intro"⟩] "c1" []
      = ([], [⟨requestSentMsg [⟨"c1", "Intro"⟩] "c1", NType.info⟩]) :=
  request_completion_unregistered "u1" "n" "e@x" "c1" [⟨"c1", "Intro"⟩] [] (by simp)

end Deepmetrics
